import Mathlib

/-!
# Verification of the quotes storage-and-voting engine

A shallow embedding of the sqlite-backed quote database (package `quotes`):
the quote table, the vote ledger, the transactional vote operations
(`Upvote` / `Downvote` / `Unvote`), the cascading delete, the aggregate
vote counts, the threshold-filtered random/list queries, and the web
layer's vote-sort.  Tables are lists of rows; a transaction is a function
that either returns the updated database (commit) or an error together
with the unchanged database (rollback).  The Go `int`/`int64` values are
modelled as `Int`; `time.Now().Unix()` values are passed in explicitly;
`ORDER BY RANDOM() LIMIT 1` receives an index-choice oracle; a database
step that can fail for environmental reasons receives an explicit fault
oracle.  A nil database handle (the state after `Close`) is `none`, and
any operation dereferencing it yields the `panicked` outcome, matching
Go's nil-pointer behaviour.

The main embedding follows the newest revision of `quotes.go` (the one
with the `runTx` transaction bodies) and of `web.go` (the one with
`votesort`).  Older revisions of the same functions that are also part of
the repository are embedded in namespaces `V0` (the pre-votes revision)
and `V1` (the middle revision), where their behaviour differs.
-/

/-- `quoteThreshold` from the source: fixed popularity threshold `-2`. -/
def quoteThreshold : Int := -2

/-- One row of the `quotes` table: `id, date, author, quote`. -/
structure QuoteRow where
  id : Int
  date : Int
  author : String
  quote : String
deriving Repr, DecidableEq

/-- One row of the `votes` table: `quote_id, voter, vote, date` with
`PRIMARY KEY (quote_id, voter)`. -/
structure VoteRow where
  quote_id : Int
  voter : String
  vote : Int
  date : Int
deriving Repr, DecidableEq

/-- The backing store: the two tables. -/
structure DB where
  quotes : List QuoteRow
  votes : List VoteRow
deriving Repr, DecidableEq

/-- Errors surfaced by the engine.  `notValidId` is the
`errors.New ("Not a valid id")` of the vote operations (the spec's
`NotFound`); `noRows` is `sql.ErrNoRows` from a query with an empty
result; `uniqueConstraint` is a sqlite PRIMARY KEY violation; `txFail`
and `execFail` stand for environmental failures of a transaction step or
of a bare `Exec`. -/
inductive QErr where
  | notValidId
  | noRows
  | uniqueConstraint
  | txFail
  | execFail
deriving Repr, DecidableEq

/-- Outcome of an engine call: a returned value, a returned error value,
or a runtime panic (nil-pointer dereference). -/
inductive Res (α : Type) where
  | ok (val : α)
  | err (e : QErr)
  | panicked
deriving Repr, DecidableEq

/-- The `QuoteDB` struct: the database handle (`none` models the nil
handle left by `Close`) and the cached quote count `nQuotes`. -/
structure QuoteDB where
  db : Option DB
  nQuotes : Int
deriving Repr, DecidableEq

/-- The `WHERE quote_id = ? AND voter = ?` predicate shared by
`sqlHasVote` and `sqlUnvote`. -/
def pairMatch (id : Int) (voter : String) (r : VoteRow) : Bool :=
  r.quote_id == id && r.voter == voter

/-- `sqlGetUpvotes`: `COUNT(*) FROM votes WHERE quote_id = ? AND vote = 1`. -/
def DB.upvotes (db : DB) (id : Int) : Nat :=
  (db.votes.filter (fun r => r.quote_id == id && r.vote == 1)).length

/-- `sqlGetDownvotes`: `COUNT(*) FROM votes WHERE quote_id = ? AND vote = -1`. -/
def DB.downvotes (db : DB) (id : Int) : Nat :=
  (db.votes.filter (fun r => r.quote_id == id && r.vote == -1)).length

/-- The `upvotes - downvotes` expression of the filtered queries. -/
def DB.score (db : DB) (id : Int) : Int :=
  (db.upvotes id : Int) - (db.downvotes id : Int)

/-- `sqlHasQuote`: `EXISTS (SELECT id FROM quotes WHERE id = ?)`. -/
def DB.hasQuote (db : DB) (id : Int) : Bool :=
  db.quotes.any (fun q => q.id == id)

/-- `sqlHasVote`: `SELECT vote FROM votes WHERE quote_id = ? AND voter = ?
LIMIT 1` — the first matching row, if any. -/
def DB.findVote (db : DB) (id : Int) (voter : String) : Option VoteRow :=
  db.votes.find? (pairMatch id voter)

/-- The vote state of a `(quote, voter)` pair: `none`, or the stored
direction. -/
def DB.voteState (db : DB) (id : Int) (voter : String) : Option Int :=
  (db.findVote id voter).map (fun r => r.vote)

/-- `sqlUnvote`: `DELETE FROM votes WHERE quote_id = ? AND voter = ?`. -/
def erasePair (votes : List VoteRow) (id : Int) (voter : String) : List VoteRow :=
  votes.filter (fun r => !(pairMatch id voter r))

/-- An `INSERT INTO votes` respecting the `PRIMARY KEY (quote_id, voter)`
constraint: fails when a row for the pair already exists. -/
def insertVote (votes : List VoteRow) (row : VoteRow) : Except QErr (List VoteRow) :=
  if votes.any (pairMatch row.quote_id row.voter) then
    .error .uniqueConstraint
  else
    .ok (votes ++ [row])

/-- The transaction body of `Upvote` (`runTx`): check the quote exists,
read the current vote (`0` when no row), no-op on an existing upvote,
delete an existing downvote, insert the new upvote. -/
def DB.upvoteTx (db : DB) (id : Int) (voter : String) (now : Int) :
    Except QErr (Bool × DB) :=
  if !db.hasQuote id then .error .notValidId
  else
    let v : Int := ((db.findVote id voter).map (fun r => r.vote)).getD 0
    if v > 0 then .ok (false, db)
    else
      let votes1 := if v < 0 then erasePair db.votes id voter else db.votes
      match insertVote votes1 ⟨id, voter, 1, now⟩ with
      | .error e => .error e
      | .ok votes2 => .ok (true, { db with votes := votes2 })

/-- The transaction body of `Downvote`, symmetric to `upvoteTx`. -/
def DB.downvoteTx (db : DB) (id : Int) (voter : String) (now : Int) :
    Except QErr (Bool × DB) :=
  if !db.hasQuote id then .error .notValidId
  else
    let v : Int := ((db.findVote id voter).map (fun r => r.vote)).getD 0
    if v < 0 then .ok (false, db)
    else
      let votes1 := if v > 0 then erasePair db.votes id voter else db.votes
      match insertVote votes1 ⟨id, voter, -1, now⟩ with
      | .error e => .error e
      | .ok votes2 => .ok (true, { db with votes := votes2 })

/-- The transaction body of `Unvote`: check the quote exists, return
`false` when the voter has no row, otherwise delete it. -/
def DB.unvoteTx (db : DB) (id : Int) (voter : String) :
    Except QErr (Bool × DB) :=
  if !db.hasQuote id then .error .notValidId
  else
    match db.findVote id voter with
    | none => .ok (false, db)
    | some _ => .ok (true, { db with votes := erasePair db.votes id voter })

/-- `QuoteDB.Upvote`: commit the transaction on success, keep the old
state on error (rollback); panic on a nil handle. -/
def QuoteDB.Upvote (st : QuoteDB) (id : Int) (voter : String) (now : Int) :
    Res Bool × QuoteDB :=
  match st.db with
  | none => (.panicked, st)
  | some db =>
    match db.upvoteTx id voter now with
    | .error e => (.err e, st)
    | .ok (b, db2) => (.ok b, { st with db := some db2 })

/-- `QuoteDB.Downvote`, analogous. -/
def QuoteDB.Downvote (st : QuoteDB) (id : Int) (voter : String) (now : Int) :
    Res Bool × QuoteDB :=
  match st.db with
  | none => (.panicked, st)
  | some db =>
    match db.downvoteTx id voter now with
    | .error e => (.err e, st)
    | .ok (b, db2) => (.ok b, { st with db := some db2 })

/-- `QuoteDB.Unvote`, analogous. -/
def QuoteDB.Unvote (st : QuoteDB) (id : Int) (voter : String) :
    Res Bool × QuoteDB :=
  match st.db with
  | none => (.panicked, st)
  | some db =>
    match db.unvoteTx id voter with
    | .error e => (.err e, st)
    | .ok (b, db2) => (.ok b, { st with db := some db2 })

/-- Which step of the `DelQuote` transaction an environmental fault hits. -/
inductive DelFault where
  | delVotesStep
  | delQuoteStep
  | rowsAffectedStep
  | commitStep
deriving Repr, DecidableEq

/-- `QuoteDB.DelQuote` (newest revision): one transaction deleting the
vote rows for `id` and then the quote row; any step fault rolls the whole
transaction back and surfaces an error; on commit, `deleted` is the
number of quote rows removed and the cached count is decremented exactly
when `deleted = 1`. -/
def QuoteDB.DelQuote (st : QuoteDB) (id : Int) (fault : Option DelFault) :
    Res Bool × QuoteDB :=
  match st.db with
  | none => (.panicked, st)
  | some db =>
    match fault with
    | some _ => (.err .txFail, st)
    | none =>
      let votes2 := db.votes.filter (fun r => !(r.quote_id == id))
      let deleted := (db.quotes.filter (fun q => q.id == id)).length
      let quotes2 := db.quotes.filter (fun q => !(q.id == id))
      if deleted == 1 then
        (.ok true, ⟨some ⟨quotes2, votes2⟩, st.nQuotes - 1⟩)
      else
        (.ok false, ⟨some ⟨quotes2, votes2⟩, st.nQuotes⟩)

/-- The id `AUTOINCREMENT` assigns to a fresh `quotes` row. -/
def DB.nextId (db : DB) : Int :=
  (db.quotes.map (fun q => q.id)).foldl max 0 + 1

/-- `QuoteDB.AddQuote` (newest revision): insert the row, return the new
id, and increment the cached count after the successful insert. -/
def QuoteDB.AddQuote (st : QuoteDB) (author text : String) (now : Int) :
    Res Int × QuoteDB :=
  match st.db with
  | none => (.panicked, st)
  | some db =>
    let id := db.nextId
    (.ok id,
      ⟨some { db with quotes := db.quotes ++ [⟨id, now, author, text⟩] },
        st.nQuotes + 1⟩)

/-- `QuoteDB.EditQuote`: `UPDATE quotes SET quote = ? WHERE id = ?`,
reporting whether exactly one row matched. -/
def QuoteDB.EditQuote (st : QuoteDB) (id : Int) (text : String) :
    Res Bool × QuoteDB :=
  match st.db with
  | none => (.panicked, st)
  | some db =>
    let matched := (db.quotes.filter (fun q => q.id == id)).length
    (.ok (matched == 1),
      ⟨some { db with quotes :=
          db.quotes.map (fun q => if q.id == id then { q with quote := text } else q) },
        st.nQuotes⟩)

/-- `QuoteDB.Close`: release the handle; the handle is nil afterwards.
Closing an already-closed engine dereferences the nil handle. -/
def QuoteDB.Close (st : QuoteDB) : Res Unit × QuoteDB :=
  match st.db with
  | none => (.panicked, st)
  | some _ => (.ok (), ⟨none, st.nQuotes⟩)

/-- `QuoteDB.NQuotes`: the cached count, read without touching the store. -/
def QuoteDB.NQuotes (st : QuoteDB) : Int :=
  st.nQuotes

/-- `OpenDB`'s `getCount` step: the cache is initialised to
`COUNT(*) FROM quotes`. -/
def OpenDB (db : DB) : QuoteDB :=
  ⟨some db, (db.quotes.length : Int)⟩

/-- The two independent aggregates returned by `Votes` (newest
revision): `(sqlGetUpvotes, sqlGetDownvotes)`. -/
def DB.votesPair (db : DB) (id : Int) : Nat × Nat :=
  (db.upvotes id, db.downvotes id)

/-- `QuoteDB.Votes` (newest revision): two aggregate queries, no
existence check, no transaction. -/
def QuoteDB.Votes (st : QuoteDB) (id : Int) : Res (Nat × Nat) × QuoteDB :=
  match st.db with
  | none => (.panicked, st)
  | some db => (.ok (db.votesPair id), st)

/-- The candidate set of `sqlGetRandom`: quotes with
`upvotes - downvotes > -2`.  The query has no unfiltered variant. -/
def DB.randomCandidates (db : DB) : List QuoteRow :=
  db.quotes.filter (fun q => quoteThreshold < db.score q.id)

/-- `RandomQuote`'s query: `ORDER BY RANDOM() LIMIT 1` over the candidate
set, with the random choice supplied as an index oracle `r`;
`sql.ErrNoRows` when the candidate set is empty. -/
def DB.randomQuoteTx (db : DB) (r : Nat) : Except QErr QuoteRow :=
  let l := db.randomCandidates
  if h : l.length = 0 then .error .noRows
  else .ok (l.get ⟨r % l.length, Nat.mod_lt r (Nat.pos_of_ne_zero h)⟩)

/-- `QuoteDB.RandomQuote`: the engine call around `randomQuoteTx`. -/
def QuoteDB.RandomQuote (st : QuoteDB) (r : Nat) : Res QuoteRow × QuoteDB :=
  match st.db with
  | none => (.panicked, st)
  | some db =>
    match db.randomQuoteTx r with
    | .error e => (.err e, st)
    | .ok q => (.ok q, st)

/-- Modelled from the spec: the spec's `RandomQuote(filterLow)` candidate
pool — all quotes whose score exceeds the threshold when `filterLow` is
true, and all quotes when it is false.  Used only to compare the spec's
claimed interface against the code's `randomCandidates`. -/
def specRandomCandidates (db : DB) (filterLow : Bool) : List QuoteRow :=
  if filterLow then db.quotes.filter (fun q => quoteThreshold < db.score q.id)
  else db.quotes

/-- A quote as serialized for callers: row fields plus the two computed
vote counts (the `Quote` struct). -/
structure Quote where
  ID : Int
  Date : Int
  Author : String
  QuoteText : String
  Upvotes : Nat
  Downvotes : Nat
deriving Repr, DecidableEq

/-- Attach the computed vote counts to a row, as the `SELECT` lists of
`sqlGetAll` / `sqlGetAllFiltered` do. -/
def DB.mkView (db : DB) (q : QuoteRow) : Quote :=
  ⟨q.id, q.date, q.author, q.quote, db.upvotes q.id, db.downvotes q.id⟩

/-- The `ORDER BY q.id desc` comparison. -/
def idDescLe (a b : QuoteRow) : Bool :=
  decide (b.id ≤ a.id)

/-- The rows produced by `sqlGetAll` / `sqlGetAllFiltered`: optional
threshold filter, then `ORDER BY q.id desc`. -/
def DB.getAllRows (db : DB) (filterLow : Bool) : List QuoteRow :=
  let base :=
    if filterLow then db.quotes.filter (fun q => quoteThreshold < db.score q.id)
    else db.quotes
  base.mergeSort idDescLe

/-- `GetAll` (newest revision): the selected rows with their counts. -/
def DB.GetAll (db : DB) (filterLow : Bool) : List Quote :=
  (db.getAllRows filterLow).map db.mkView

/-- `QuoteDB.GetAll`: the engine call around `DB.GetAll`. -/
def QuoteDB.GetAll (st : QuoteDB) (filterLow : Bool) : Res (List Quote) × QuoteDB :=
  match st.db with
  | none => (.panicked, st)
  | some db => (.ok (db.GetAll filterLow), st)

/-- `Upvotes - Downvotes` of a rendered quote (the web layer's `ivotes`). -/
def Quote.scoreView (q : Quote) : Int :=
  (q.Upvotes : Int) - (q.Downvotes : Int)

/-- The `sort.Slice` comparator of `quotesRoot` (newest web revision):
`ivotes > jvotes || (ivotes == jvotes && i.ID > j.ID)`. -/
def voteSortLess (a b : Quote) : Bool :=
  decide (b.scoreView < a.scoreView) ||
    (decide (a.scoreView = b.scoreView) && decide (b.ID < a.ID))

/-- The non-strict order induced by `voteSortLess`; a slice sorted by
`sort.Slice` with `voteSortLess` is exactly one sorted by this. -/
def voteSortLe (a b : Quote) : Bool :=
  !(voteSortLess b a)

/-- `quotesRoot` (newest web revision): fetch `GetAll (!showAll)`, then,
when `votesort=true` was requested, re-sort the returned slice with
`voteSortLess` before rendering. -/
def webQuotesList (db : DB) (showAll voteSort : Bool) : List Quote :=
  let qs := db.GetAll (!showAll)
  if voteSort then qs.mergeSort voteSortLe else qs

namespace V0

/-- `AddQuote` of the oldest revision (`part_000`): `q.db.Exec(sqlAdd, …)`
followed unconditionally by `q.nQuotes++` — the cached count is
incremented even when the `Exec` fails (`execFails` is the environmental
fault oracle for the insert). -/
def AddQuote (st : QuoteDB) (author text : String) (now : Int)
    (execFails : Bool) : Res Unit × QuoteDB :=
  match st.db with
  | none => (.panicked, st)
  | some db =>
    if execFails then
      (.err .execFail, { st with nQuotes := st.nQuotes + 1 })
    else
      (.ok (),
        ⟨some { db with quotes := db.quotes ++ [⟨db.nextId, now, author, text⟩] },
          st.nQuotes + 1⟩)

end V0

namespace V1

/-- `Votes` of the middle revision (`quotes.go`): both `Scan`s run
`sqlGetUpvotes`, so the returned down count is the up count. -/
def Votes (db : DB) (id : Int) : Nat × Nat :=
  (db.upvotes id, db.upvotes id)

/-- `DelQuote` of the middle revision (`quotes.go`): a single bare
`Exec(sqlDel)` — no transaction and no deletion of the vote rows. -/
def DelQuote (st : QuoteDB) (id : Int) : Res Bool × QuoteDB :=
  match st.db with
  | none => (.panicked, st)
  | some db =>
    let r := (db.quotes.filter (fun q => q.id == id)).length
    let quotes2 := db.quotes.filter (fun q => !(q.id == id))
    if r == 1 then
      (.ok true, ⟨some { db with quotes := quotes2 }, st.nQuotes - 1⟩)
    else
      (.ok false, ⟨some { db with quotes := quotes2 }, st.nQuotes⟩)

end V1

/-! ## Helper lemmas about the ledger primitives -/

theorem pairMatch_mk (id : Int) (voter : String) (v d : Int) :
    pairMatch id voter ⟨id, voter, v, d⟩ = true := by
  simp [pairMatch]

theorem any_pair_of_find?_none {votes : List VoteRow} {id : Int} {voter : String}
    (h : votes.find? (pairMatch id voter) = none) :
    votes.any (pairMatch id voter) = false := by
  rw [List.find?_eq_none] at h
  rw [List.any_eq_false]
  exact h

theorem erasePair_any_eq_false (votes : List VoteRow) (id : Int) (voter : String) :
    (erasePair votes id voter).any (pairMatch id voter) = false := by
  rw [List.any_eq_false]
  intro r hr
  rw [erasePair, List.mem_filter] at hr
  simpa using hr.2

theorem erasePair_of_find?_none {votes : List VoteRow} {id : Int} {voter : String}
    (h : votes.find? (pairMatch id voter) = none) :
    erasePair votes id voter = votes := by
  rw [List.find?_eq_none] at h
  rw [erasePair, List.filter_eq_self]
  intro a ha
  simp [h a ha]

theorem find?_append_of_none {l1 l2 : List VoteRow} {p : VoteRow → Bool}
    (h : l1.find? p = none) :
    (l1 ++ l2).find? p = l2.find? p := by
  rw [List.find?_append, h, Option.none_or]

theorem insertVote_ok {votes : List VoteRow} {row : VoteRow} {votes2 : List VoteRow}
    (h : insertVote votes row = .ok votes2) :
    votes.any (pairMatch row.quote_id row.voter) = false ∧ votes2 = votes ++ [row] := by
  unfold insertVote at h
  split at h
  · cases h
  · next hany =>
    cases h
    exact ⟨Bool.eq_false_iff.mpr hany, rfl⟩

/-! ## Case lemmas for the three vote transactions -/

theorem upvoteTx_from_none (db : DB) (id : Int) (voter : String) (now : Int)
    (hq : db.hasQuote id = true) (h : db.findVote id voter = none) :
    db.upvoteTx id voter now
      = .ok (true, { db with votes := db.votes ++ [⟨id, voter, 1, now⟩] }) := by
  have hany : db.votes.any (pairMatch id voter) = false := any_pair_of_find?_none h
  simp [DB.upvoteTx, hq, h, insertVote, hany]

theorem upvoteTx_from_up (db : DB) (id : Int) (voter : String) (now : Int)
    (hq : db.hasQuote id = true) (r : VoteRow)
    (h : db.findVote id voter = some r) (hv : r.vote = 1) :
    db.upvoteTx id voter now = .ok (false, db) := by
  simp [DB.upvoteTx, hq, h, hv]

theorem upvoteTx_from_down (db : DB) (id : Int) (voter : String) (now : Int)
    (hq : db.hasQuote id = true) (r : VoteRow)
    (h : db.findVote id voter = some r) (hv : r.vote = -1) :
    db.upvoteTx id voter now
      = .ok (true, { db with votes := erasePair db.votes id voter ++ [⟨id, voter, 1, now⟩] }) := by
  have hany := erasePair_any_eq_false db.votes id voter
  simp [DB.upvoteTx, hq, h, hv, insertVote, hany]

theorem downvoteTx_from_none (db : DB) (id : Int) (voter : String) (now : Int)
    (hq : db.hasQuote id = true) (h : db.findVote id voter = none) :
    db.downvoteTx id voter now
      = .ok (true, { db with votes := db.votes ++ [⟨id, voter, -1, now⟩] }) := by
  have hany : db.votes.any (pairMatch id voter) = false := any_pair_of_find?_none h
  simp [DB.downvoteTx, hq, h, insertVote, hany]

theorem downvoteTx_from_down (db : DB) (id : Int) (voter : String) (now : Int)
    (hq : db.hasQuote id = true) (r : VoteRow)
    (h : db.findVote id voter = some r) (hv : r.vote = -1) :
    db.downvoteTx id voter now = .ok (false, db) := by
  simp [DB.downvoteTx, hq, h, hv]

theorem downvoteTx_from_up (db : DB) (id : Int) (voter : String) (now : Int)
    (hq : db.hasQuote id = true) (r : VoteRow)
    (h : db.findVote id voter = some r) (hv : r.vote = 1) :
    db.downvoteTx id voter now
      = .ok (true, { db with votes := erasePair db.votes id voter ++ [⟨id, voter, -1, now⟩] }) := by
  have hany := erasePair_any_eq_false db.votes id voter
  simp [DB.downvoteTx, hq, h, hv, insertVote, hany]

theorem unvoteTx_from_none (db : DB) (id : Int) (voter : String)
    (hq : db.hasQuote id = true) (h : db.findVote id voter = none) :
    db.unvoteTx id voter = .ok (false, db) := by
  simp [DB.unvoteTx, hq, h]

theorem unvoteTx_from_some (db : DB) (id : Int) (voter : String) (r : VoteRow)
    (hq : db.hasQuote id = true) (h : db.findVote id voter = some r) :
    db.unvoteTx id voter = .ok (true, { db with votes := erasePair db.votes id voter }) := by
  simp [DB.unvoteTx, hq, h]

/-! ## C1: the three-state vote transition table -/

theorem upvoteTx_ok_true_state {db db2 : DB} {id : Int} {voter : String} {now : Int}
    (h : db.upvoteTx id voter now = .ok (true, db2)) :
    db2.findVote id voter = some ⟨id, voter, 1, now⟩ ∧ db2.quotes = db.quotes := by
  unfold DB.upvoteTx at h
  split at h
  · cases h
  · simp only [] at h
    split at h
    · cases h
    · split at h <;> rename_i hins
      · cases h
      · cases h
        obtain ⟨hany, hv2⟩ := insertVote_ok hins
        subst hv2
        constructor
        · show ((_ ++ [_] : List VoteRow).find? _) = _
          rw [find?_append_of_none]
          · simp [List.find?_cons, pairMatch_mk]
          · rw [List.find?_eq_none]
            rw [List.any_eq_false] at hany
            exact hany
        · rfl

/-- C1: For an existing quote id and any voter, `Upvote`, `Downvote` and
`Unvote` implement exactly the three-state transition table: from state
`none`, `Upvote`/`Downvote` insert the directional row and return
applied = true while `Unvote` returns removed = false; from the same
direction the vote call is a no-op returning applied = false; from the
opposite direction the old row is deleted and the new one inserted with
applied = true; `Unvote` from `up` or `down` deletes the row and returns
removed = true; and two consecutive `Upvote` calls return applied = true
then applied = false with the ledger unchanged by the second call. -/
theorem vote_state_machine (db : DB) (n : Int) (id : Int) (voter : String) (t t2 : Int)
    (hq : db.hasQuote id = true) :
    (db.voteState id voter = none →
        QuoteDB.Upvote ⟨some db, n⟩ id voter t
          = (.ok true, ⟨some { db with votes := db.votes ++ [⟨id, voter, 1, t⟩] }, n⟩)
      ∧ QuoteDB.Downvote ⟨some db, n⟩ id voter t
          = (.ok true, ⟨some { db with votes := db.votes ++ [⟨id, voter, -1, t⟩] }, n⟩)
      ∧ QuoteDB.Unvote ⟨some db, n⟩ id voter = (.ok false, ⟨some db, n⟩))
  ∧ (db.voteState id voter = some 1 →
        QuoteDB.Upvote ⟨some db, n⟩ id voter t = (.ok false, ⟨some db, n⟩)
      ∧ QuoteDB.Downvote ⟨some db, n⟩ id voter t
          = (.ok true,
              ⟨some { db with votes := erasePair db.votes id voter ++ [⟨id, voter, -1, t⟩] }, n⟩)
      ∧ QuoteDB.Unvote ⟨some db, n⟩ id voter
          = (.ok true, ⟨some { db with votes := erasePair db.votes id voter }, n⟩))
  ∧ (db.voteState id voter = some (-1) →
        QuoteDB.Upvote ⟨some db, n⟩ id voter t
          = (.ok true,
              ⟨some { db with votes := erasePair db.votes id voter ++ [⟨id, voter, 1, t⟩] }, n⟩)
      ∧ QuoteDB.Downvote ⟨some db, n⟩ id voter t = (.ok false, ⟨some db, n⟩)
      ∧ QuoteDB.Unvote ⟨some db, n⟩ id voter
          = (.ok true, ⟨some { db with votes := erasePair db.votes id voter }, n⟩))
  ∧ (∀ db2 : DB, QuoteDB.Upvote ⟨some db, n⟩ id voter t = (.ok true, ⟨some db2, n⟩) →
        QuoteDB.Upvote ⟨some db2, n⟩ id voter t2 = (.ok false, ⟨some db2, n⟩)) := by
  refine ⟨?_, ?_, ?_, ?_⟩
  · intro h
    rw [DB.voteState, Option.map_eq_none'] at h
    refine ⟨?_, ?_, ?_⟩
    · simp [QuoteDB.Upvote, upvoteTx_from_none db id voter t hq h]
    · simp [QuoteDB.Downvote, downvoteTx_from_none db id voter t hq h]
    · simp [QuoteDB.Unvote, unvoteTx_from_none db id voter hq h]
  · intro h
    rw [DB.voteState] at h
    obtain ⟨r, hr, hv⟩ := Option.map_eq_some'.mp h
    refine ⟨?_, ?_, ?_⟩
    · simp [QuoteDB.Upvote, upvoteTx_from_up db id voter t hq r hr hv]
    · simp [QuoteDB.Downvote, downvoteTx_from_up db id voter t hq r hr hv]
    · simp [QuoteDB.Unvote, unvoteTx_from_some db id voter r hq hr]
  · intro h
    rw [DB.voteState] at h
    obtain ⟨r, hr, hv⟩ := Option.map_eq_some'.mp h
    refine ⟨?_, ?_, ?_⟩
    · simp [QuoteDB.Upvote, upvoteTx_from_down db id voter t hq r hr hv]
    · simp [QuoteDB.Downvote, downvoteTx_from_down db id voter t hq r hr hv]
    · simp [QuoteDB.Unvote, unvoteTx_from_some db id voter r hq hr]
  · intro db2 h
    rw [QuoteDB.Upvote] at h
    simp only at h
    rcases htx : db.upvoteTx id voter t with e | ⟨b, db2'⟩
    · rw [htx] at h; cases h
    · rw [htx] at h
      simp only [Prod.mk.injEq, Res.ok.injEq, QuoteDB.mk.injEq, Option.some.injEq,
        and_true] at h
      obtain ⟨hb, hdb⟩ := h
      subst hb hdb
      obtain ⟨hfind, hquotes⟩ := upvoteTx_ok_true_state htx
      have hq2 : db2'.hasQuote id = true := by
        rw [DB.hasQuote, hquotes]; exact hq
      simp [QuoteDB.Upvote, upvoteTx_from_up db2' id voter t2 hq2 _ hfind rfl]

/-! ## C6: vote operations on a missing id fail with NotFound, untouched state -/

/-- C6: each vote operation first checks inside its transaction that the
quote id exists; when it does not, the transaction is rolled back, the
call fails with the not-valid-id error, and the engine state is exactly
as before. -/
theorem vote_requires_quote (db : DB) (n : Int) (id : Int) (voter : String) (t : Int)
    (h : db.hasQuote id = false) :
    QuoteDB.Upvote ⟨some db, n⟩ id voter t = (.err .notValidId, ⟨some db, n⟩)
  ∧ QuoteDB.Downvote ⟨some db, n⟩ id voter t = (.err .notValidId, ⟨some db, n⟩)
  ∧ QuoteDB.Unvote ⟨some db, n⟩ id voter = (.err .notValidId, ⟨some db, n⟩) := by
  refine ⟨?_, ?_, ?_⟩
  · simp [QuoteDB.Upvote, DB.upvoteTx, h]
  · simp [QuoteDB.Downvote, DB.downvoteTx, h]
  · simp [QuoteDB.Unvote, DB.unvoteTx, h]

/-- Witness for C6 at a concrete closed state: the empty store has no
quote 7, and all three vote calls return the not-valid-id error leaving
the state unchanged. -/
theorem vote_requires_quote_witness :
    (DB.hasQuote ⟨[], []⟩ 7 = false)
  ∧ QuoteDB.Upvote ⟨some ⟨[], []⟩, 0⟩ 7 "v" 3 = (.err .notValidId, ⟨some ⟨[], []⟩, 0⟩)
  ∧ QuoteDB.Downvote ⟨some ⟨[], []⟩, 0⟩ 7 "v" 3 = (.err .notValidId, ⟨some ⟨[], []⟩, 0⟩)
  ∧ QuoteDB.Unvote ⟨some ⟨[], []⟩, 0⟩ 7 "v" = (.err .notValidId, ⟨some ⟨[], []⟩, 0⟩) :=
  ⟨by decide, vote_requires_quote ⟨[], []⟩ 0 7 "v" 3 (by decide)⟩

/-! ## C1 witness -/

/-- Witness for C1: on a store with quote 1 and empty ledger, a first
`Upvote` applies and inserts the up row. -/
theorem vote_state_machine_witness :
    QuoteDB.Upvote ⟨some ⟨[⟨1, 0, "a", "q"⟩], []⟩, 0⟩ 1 "v" 5
      = (.ok true, ⟨some ⟨[⟨1, 0, "a", "q"⟩], [⟨1, "v", 1, 5⟩]⟩, 0⟩) :=
  ((vote_state_machine ⟨[⟨1, 0, "a", "q"⟩], []⟩ 0 1 "v" 5 6 (by decide)).1 (by decide)).1

/-! ## C2: sequences of vote calls and the one-row-per-pair invariant -/

/-- The vote rows of one `(quote, voter)` pair. -/
def pairRows (db : DB) (id : Int) (voter : String) : List VoteRow :=
  db.votes.filter (pairMatch id voter)

/-- The schema invariant for one pair: at most one row, with a valid
direction. -/
def PairWF (db : DB) (id : Int) (voter : String) : Prop :=
  (pairRows db id voter).length ≤ 1
    ∧ ∀ r ∈ pairRows db id voter, r.vote = 1 ∨ r.vote = -1

/-- One vote call of the sequence, with its timestamp. -/
inductive VoteOp where
  | up (now : Int)
  | down (now : Int)
  | un
deriving Repr, DecidableEq

/-- Run one vote call against the store, keeping the old store when the
transaction rolls back. -/
def applyOp (id : Int) (voter : String) (db : DB) : VoteOp → DB
  | .up t =>
    match db.upvoteTx id voter t with
    | .ok (_, db2) => db2
    | .error _ => db
  | .down t =>
    match db.downvoteTx id voter t with
    | .ok (_, db2) => db2
    | .error _ => db
  | .un =>
    match db.unvoteTx id voter with
    | .ok (_, db2) => db2
    | .error _ => db

/-- Run a sequence of vote calls by one voter on one quote. -/
def applyOps (id : Int) (voter : String) (db : DB) (l : List VoteOp) : DB :=
  l.foldl (applyOp id voter) db

/-- The pair state each call drives the ledger to. -/
def opTarget : VoteOp → Option Int
  | .up _ => some 1
  | .down _ => some (-1)
  | .un => none

/-- The pair state after a sequence: the target of its last call, or the
initial state for the empty sequence. -/
def finalDir (init : Option Int) : List VoteOp → Option Int
  | [] => init
  | op :: rest => finalDir (opTarget op) rest

theorem finalDir_cons (init : Option Int) (op : VoteOp) (rest : List VoteOp) :
    finalDir init (op :: rest) = finalDir (opTarget op) rest :=
  rfl

theorem find?_eq_head?_filter {α : Type} (p : α → Bool) (l : List α) :
    l.find? p = (l.filter p).head? := by
  induction l with
  | nil => rfl
  | cons a l ih =>
    by_cases h : p a = true
    · rw [List.find?_cons_of_pos _ h, List.filter_cons_of_pos h]
      rfl
    · rw [List.find?_cons_of_neg _ h, List.filter_cons_of_neg h, ih]

theorem pairRows_append (votes tail : List VoteRow) (id : Int) (voter : String) :
    (votes ++ tail).filter (pairMatch id voter)
      = votes.filter (pairMatch id voter) ++ tail.filter (pairMatch id voter) :=
  List.filter_append votes tail

theorem pairRows_erase_eq_nil (votes : List VoteRow) (id : Int) (voter : String) :
    (erasePair votes id voter).filter (pairMatch id voter) = [] := by
  rw [List.filter_eq_nil_iff]
  intro r hr
  rw [erasePair, List.mem_filter] at hr
  simpa using hr.2

theorem pairRows_eq_nil_of_find?_none {votes : List VoteRow} {id : Int} {voter : String}
    (h : votes.find? (pairMatch id voter) = none) :
    votes.filter (pairMatch id voter) = [] := by
  rw [find?_eq_head?_filter] at h
  exact List.head?_eq_none_iff.mp h

theorem applyOp_step (db : DB) (id : Int) (voter : String) (op : VoteOp)
    (hq : db.hasQuote id = true) (hwf : PairWF db id voter) :
    (applyOp id voter db op).quotes = db.quotes
  ∧ PairWF (applyOp id voter db op) id voter
  ∧ (applyOp id voter db op).voteState id voter = opTarget op := by
  have hview : ∀ (row : VoteRow) (base : List VoteRow),
      base.filter (pairMatch id voter) = [] →
      pairMatch id voter row = true →
      row.vote = 1 ∨ row.vote = -1 →
      PairWF { db with votes := base ++ [row] } id voter
        ∧ (DB.voteState { db with votes := base ++ [row] } id voter) = some row.vote := by
    intro row base hbase hrow hdir
    have hfilter : (base ++ [row]).filter (pairMatch id voter) = [row] := by
      rw [List.filter_append, hbase, List.filter_cons]
      simp [hrow]
    have hrows : pairRows { db with votes := base ++ [row] } id voter = [row] := hfilter
    refine ⟨⟨?_, ?_⟩, ?_⟩
    · rw [hrows]
      exact Nat.le_refl 1
    · intro r hr
      rw [hrows, List.mem_singleton] at hr
      subst hr
      exact hdir
    · rw [DB.voteState, DB.findVote]
      show (((base ++ [row] : List VoteRow).find? (pairMatch id voter)).map
        (fun r => r.vote)) = some row.vote
      rw [find?_eq_head?_filter, hfilter]
      rfl
  have hpair : ∀ r : VoteRow, pairMatch id voter r = true →
      r.quote_id = id ∧ r.voter = voter := by
    intro r hr
    rw [pairMatch, Bool.and_eq_true, beq_iff_eq, beq_iff_eq] at hr
    exact hr
  cases op with
  | up t =>
    rcases hfv : db.findVote id voter with _ | r
    · have htx := upvoteTx_from_none db id voter t hq hfv
      have hbase := pairRows_eq_nil_of_find?_none hfv
      have h2 := hview ⟨id, voter, 1, t⟩ db.votes hbase (pairMatch_mk id voter 1 t)
        (Or.inl rfl)
      exact ⟨by simp [applyOp, htx], by simpa [applyOp, htx] using h2.1,
        by simpa [applyOp, htx, opTarget] using h2.2⟩
    · have hrmem : r ∈ pairRows db id voter := by
        rw [pairRows, List.mem_filter]
        exact ⟨List.mem_of_find?_eq_some hfv, List.find?_some hfv⟩
      rcases hwf.2 r hrmem with hv | hv
      · have htx := upvoteTx_from_up db id voter t hq r hfv hv
        refine ⟨by simp [applyOp, htx], by simpa [applyOp, htx] using hwf, ?_⟩
        simp [applyOp, htx, DB.voteState, hfv, hv, opTarget]
      · have htx := upvoteTx_from_down db id voter t hq r hfv hv
        have hbase := pairRows_erase_eq_nil db.votes id voter
        have h2 := hview ⟨id, voter, 1, t⟩ (erasePair db.votes id voter) hbase
          (pairMatch_mk id voter 1 t) (Or.inl rfl)
        exact ⟨by simp [applyOp, htx], by simpa [applyOp, htx] using h2.1,
          by simpa [applyOp, htx, opTarget] using h2.2⟩
  | down t =>
    rcases hfv : db.findVote id voter with _ | r
    · have htx := downvoteTx_from_none db id voter t hq hfv
      have hbase := pairRows_eq_nil_of_find?_none hfv
      have h2 := hview ⟨id, voter, -1, t⟩ db.votes hbase (pairMatch_mk id voter (-1) t)
        (Or.inr rfl)
      exact ⟨by simp [applyOp, htx], by simpa [applyOp, htx] using h2.1,
        by simpa [applyOp, htx, opTarget] using h2.2⟩
    · have hrmem : r ∈ pairRows db id voter := by
        rw [pairRows, List.mem_filter]
        exact ⟨List.mem_of_find?_eq_some hfv, List.find?_some hfv⟩
      rcases hwf.2 r hrmem with hv | hv
      · have htx := downvoteTx_from_up db id voter t hq r hfv hv
        have hbase := pairRows_erase_eq_nil db.votes id voter
        have h2 := hview ⟨id, voter, -1, t⟩ (erasePair db.votes id voter) hbase
          (pairMatch_mk id voter (-1) t) (Or.inr rfl)
        exact ⟨by simp [applyOp, htx], by simpa [applyOp, htx] using h2.1,
          by simpa [applyOp, htx, opTarget] using h2.2⟩
      · have htx := downvoteTx_from_down db id voter t hq r hfv hv
        refine ⟨by simp [applyOp, htx], by simpa [applyOp, htx] using hwf, ?_⟩
        simp [applyOp, htx, DB.voteState, hfv, hv, opTarget]
  | un =>
    rcases hfv : db.findVote id voter with _ | r
    · have htx := unvoteTx_from_none db id voter hq hfv
      refine ⟨by simp [applyOp, htx], by simpa [applyOp, htx] using hwf, ?_⟩
      simp [applyOp, htx, DB.voteState, hfv, opTarget]
    · have htx := unvoteTx_from_some db id voter r hq hfv
      have happ : applyOp id voter db .un
          = { db with votes := erasePair db.votes id voter } := by
        simp [applyOp, htx]
      rw [happ]
      have hbase := pairRows_erase_eq_nil db.votes id voter
      refine ⟨rfl, ⟨?_, ?_⟩, ?_⟩
      · show ((erasePair db.votes id voter).filter (pairMatch id voter)).length ≤ 1
        rw [hbase]
        exact Nat.zero_le 1
      · intro r2 hr2
        have hmem : r2 ∈ (erasePair db.votes id voter).filter (pairMatch id voter) := hr2
        rw [hbase] at hmem
        cases hmem
      · rw [DB.voteState, DB.findVote]
        show (((erasePair db.votes id voter).find? (pairMatch id voter)).map
          (fun r => r.vote)) = opTarget .un
        rw [find?_eq_head?_filter, hbase]
        rfl

theorem applyOps_spec (id : Int) (voter : String) (l : List VoteOp) :
    ∀ db : DB, db.hasQuote id = true → PairWF db id voter →
      (applyOps id voter db l).quotes = db.quotes
    ∧ PairWF (applyOps id voter db l) id voter
    ∧ (applyOps id voter db l).voteState id voter
        = finalDir (db.voteState id voter) l := by
  induction l with
  | nil =>
    intro db _ hwf
    exact ⟨rfl, hwf, rfl⟩
  | cons op rest ih =>
    intro db hq hwf
    obtain ⟨hquotes, hwf2, hstate⟩ := applyOp_step db id voter op hq hwf
    have hq2 : (applyOp id voter db op).hasQuote id = true := by
      rw [DB.hasQuote, hquotes]
      exact hq
    obtain ⟨h1, h2, h3⟩ := ih (applyOp id voter db op) hq2 hwf2
    refine ⟨?_, h2, ?_⟩
    · show (applyOps id voter (applyOp id voter db op) rest).quotes = db.quotes
      rw [h1, hquotes]
    · show (applyOps id voter (applyOp id voter db op) rest).voteState id voter
        = finalDir (db.voteState id voter) (op :: rest)
      rw [h3, hstate, finalDir_cons]

/-- C2: after any sequence of `Upvote`/`Downvote`/`Unvote` calls by one
voter on one existing quote, starting from a ledger satisfying the
`(quote_id, voter)` primary-key invariant, the ledger still holds at most
one row for the pair, and its direction is exactly the one established by
the last state-changing call of the sequence — `up` after a final
`Upvote`, `down` after a final `Downvote`, and no row after a final
`Unvote`. -/
theorem vote_ledger_invariant (db : DB) (id : Int) (voter : String) (l : List VoteOp)
    (hq : db.hasQuote id = true) (hwf : PairWF db id voter) :
    (pairRows (applyOps id voter db l) id voter).length ≤ 1
  ∧ (applyOps id voter db l).voteState id voter = finalDir (db.voteState id voter) l := by
  obtain ⟨-, hwf2, hstate⟩ := applyOps_spec id voter l db hq hwf
  exact ⟨hwf2.1, hstate⟩

/-- Witness for C2: quote 1, voter `"v"`, starting from the empty ledger
and running Upvote, Downvote, Downvote, Unvote, Upvote: one row remains
and its direction is up. -/
theorem vote_ledger_invariant_witness :
    (pairRows (applyOps 1 "v" ⟨[⟨1, 0, "a", "q"⟩], []⟩
        [.up 1, .down 2, .down 3, .un, .up 4]) 1 "v").length ≤ 1
  ∧ (applyOps 1 "v" ⟨[⟨1, 0, "a", "q"⟩], []⟩
        [.up 1, .down 2, .down 3, .un, .up 4]).voteState 1 "v"
      = finalDir ((⟨[⟨1, 0, "a", "q"⟩], []⟩ : DB).voteState 1 "v")
        [.up 1, .down 2, .down 3, .un, .up 4] :=
  vote_ledger_invariant ⟨[⟨1, 0, "a", "q"⟩], []⟩ 1 "v"
    [.up 1, .down 2, .down 3, .un, .up 4] (by decide)
    ⟨by decide, by decide⟩

/-! ## C3: DelQuote cascades atomically -/

theorem filter_id_length (l : List QuoteRow) (id : Int)
    (h : (l.map QuoteRow.id).Nodup) :
    (l.filter (fun q => q.id == id)).length
      = if l.any (fun q => q.id == id) then 1 else 0 := by
  induction l with
  | nil => rfl
  | cons q l ih =>
    rw [List.map_cons, List.nodup_cons] at h
    by_cases hq : q.id = id
    · have hnone : l.filter (fun x => x.id == id) = [] := by
        rw [List.filter_eq_nil_iff]
        intro x hx
        simp only [beq_iff_eq]
        intro hxid
        exact h.1 (by rw [hq, ← hxid]; exact List.mem_map_of_mem QuoteRow.id hx)
      rw [List.filter_cons, List.any_cons]
      simp [hq, hnone]
    · rw [List.filter_cons, List.any_cons]
      simp only [beq_iff_eq, hq]
      simpa [hq] using ih h.2

/-- C3: `DelQuote`, in one transaction, removes every vote row for the id
and then the quote row; it returns deleted = true exactly when the quote
row existed (false, with no error, for a nonexistent id), decrements the
cached count exactly when a row was removed, and when any transaction
step faults the whole call rolls back, surfacing an error with the engine
state exactly as before. -/
theorem delquote_cascade_atomic (db : DB) (n : Int) (id : Int) (fault : Option DelFault)
    (hids : (db.quotes.map QuoteRow.id).Nodup) :
    (∀ f, fault = some f →
        QuoteDB.DelQuote ⟨some db, n⟩ id fault = (.err .txFail, ⟨some db, n⟩))
  ∧ (fault = none →
      ∃ db2 : DB,
        QuoteDB.DelQuote ⟨some db, n⟩ id none
            = (.ok (db.hasQuote id), ⟨some db2, if db.hasQuote id then n - 1 else n⟩)
        ∧ (∀ r : VoteRow, r ∈ db2.votes → ¬r.quote_id = id)
        ∧ (∀ q : QuoteRow, q ∈ db2.quotes → ¬q.id = id)
        ∧ (∀ r : VoteRow, r ∈ db.votes → ¬r.quote_id = id → r ∈ db2.votes)
        ∧ (∀ q : QuoteRow, q ∈ db.quotes → ¬q.id = id → q ∈ db2.quotes)
        ∧ db2.hasQuote id = false) := by
  constructor
  · intro f hf
    subst hf
    rfl
  · intro _
    refine ⟨⟨db.quotes.filter (fun q => !(q.id == id)),
      db.votes.filter (fun r => !(r.quote_id == id))⟩, ?_, ?_, ?_, ?_, ?_, ?_⟩
    · have hlen := filter_id_length db.quotes id hids
      by_cases hq : db.quotes.any (fun q => q.id == id) = true
      · simp [QuoteDB.DelQuote, hlen, hq, DB.hasQuote]
      · rw [Bool.not_eq_true] at hq
        simp [QuoteDB.DelQuote, hlen, hq, DB.hasQuote]
    · intro r hr
      rw [List.mem_filter] at hr
      simpa using hr.2
    · intro q hq
      rw [List.mem_filter] at hq
      simpa using hq.2
    · intro r hr hrid
      rw [List.mem_filter]
      exact ⟨hr, by simpa using hrid⟩
    · intro q hq hqid
      rw [List.mem_filter]
      exact ⟨hq, by simpa using hqid⟩
    · rw [DB.hasQuote, List.any_eq_false]
      intro q hq
      rw [List.mem_filter] at hq
      simpa using hq.2

/-- Witness for C3: with two quotes and votes on both, a fault in the
vote-deletion step of `DelQuote 1` rolls the whole call back, surfacing
an error with the store exactly as before. -/
theorem delquote_cascade_atomic_witness :
    QuoteDB.DelQuote ⟨some ⟨[⟨1, 0, "a", "q1"⟩, ⟨2, 0, "b", "q2"⟩],
        [⟨1, "v", 1, 0⟩, ⟨1, "w", -1, 0⟩, ⟨2, "v", 1, 0⟩]⟩, 2⟩ 1 (some .delVotesStep)
      = (.err .txFail, ⟨some ⟨[⟨1, 0, "a", "q1"⟩, ⟨2, 0, "b", "q2"⟩],
        [⟨1, "v", 1, 0⟩, ⟨1, "w", -1, 0⟩, ⟨2, "v", 1, 0⟩]⟩, 2⟩) :=
  (delquote_cascade_atomic ⟨[⟨1, 0, "a", "q1"⟩, ⟨2, 0, "b", "q2"⟩],
      [⟨1, "v", 1, 0⟩, ⟨1, "w", -1, 0⟩, ⟨2, "v", 1, 0⟩]⟩ 2 1 (some .delVotesStep)
      (by decide)).1 .delVotesStep rfl

/-! ## C4: the middle revision's `Votes` returns the up count twice -/

/-- C4 evaluation: on a ledger with two up-votes and one down-vote for
quote 1, the middle revision's `Votes` (`quotes.go`, both `Scan`s running
`sqlGetUpvotes`) returns `(2, 2)`, while the ledger's true down count is
`1` and the newest revision's pair of aggregates is `(2, 1)`. -/
theorem votes_bug_eval :
    V1.Votes ⟨[⟨1, 0, "a", "q"⟩],
        [⟨1, "u1", 1, 0⟩, ⟨1, "u2", 1, 0⟩, ⟨1, "u3", -1, 0⟩]⟩ 1 = (2, 2)
  ∧ DB.downvotes ⟨[⟨1, 0, "a", "q"⟩],
        [⟨1, "u1", 1, 0⟩, ⟨1, "u2", 1, 0⟩, ⟨1, "u3", -1, 0⟩]⟩ 1 = 1
  ∧ DB.votesPair ⟨[⟨1, 0, "a", "q"⟩],
        [⟨1, "u1", 1, 0⟩, ⟨1, "u2", 1, 0⟩, ⟨1, "u3", -1, 0⟩]⟩ 1 = (2, 1) := by
  decide

/-! ## C5: RandomQuote has no filterLow parameter; it always filters -/

/-- C5 counterexample: on a store whose single quote has score `-2`, the
code's candidate pool is empty — not the full quote list the spec
prescribes for `filterLow = false` — and `RandomQuote` returns the
no-rows error even though an unfiltered selection would have a candidate. -/
theorem randomquote_filterlow_counterexample :
    DB.randomCandidates ⟨[⟨1, 0, "a", "q"⟩], [⟨1, "u1", -1, 0⟩, ⟨1, "u2", -1, 0⟩]⟩
      ≠ specRandomCandidates ⟨[⟨1, 0, "a", "q"⟩], [⟨1, "u1", -1, 0⟩, ⟨1, "u2", -1, 0⟩]⟩ false
  ∧ QuoteDB.RandomQuote ⟨some ⟨[⟨1, 0, "a", "q"⟩], [⟨1, "u1", -1, 0⟩, ⟨1, "u2", -1, 0⟩]⟩, 1⟩ 0
      = (.err .noRows, ⟨some ⟨[⟨1, 0, "a", "q"⟩], [⟨1, "u1", -1, 0⟩, ⟨1, "u2", -1, 0⟩]⟩, 1⟩)
  ∧ ([] : List QuoteRow)
      ≠ (⟨[⟨1, 0, "a", "q"⟩], [⟨1, "u1", -1, 0⟩, ⟨1, "u2", -1, 0⟩]⟩ : DB).quotes := by
  refine ⟨by decide, ?_, by decide⟩
  rfl

/-- C5 (amended): `RandomQuote` takes no filter flag — its query always
restricts to quotes whose score exceeds the fixed threshold `-2`; any
returned quote is a stored quote with score above the threshold
(whatever the random choice), and the call fails with the no-rows error
exactly when that candidate set is empty. -/
theorem randomquote_threshold (db : DB) (r : Nat) :
    (∀ q : QuoteRow, db.randomQuoteTx r = .ok q →
        q ∈ db.quotes ∧ quoteThreshold < db.score q.id)
  ∧ (db.randomQuoteTx r = .error .noRows ↔ db.randomCandidates = []) := by
  constructor
  · intro q hq
    rw [DB.randomQuoteTx] at hq
    split at hq
    · cases hq
    · next h =>
      simp only [Except.ok.injEq] at hq
      have hmem : q ∈ db.randomCandidates := by
        rw [← hq]
        exact List.get_mem _ _ _
      rw [DB.randomCandidates, List.mem_filter] at hmem
      exact ⟨hmem.1, by simpa using hmem.2⟩
  · constructor
    · intro hres
      by_cases hlen : db.randomCandidates.length = 0
      · exact List.length_eq_zero.mp hlen
      · exfalso
        rw [DB.randomQuoteTx] at hres
        rw [dif_neg hlen] at hres
        cases hres
    · intro h
      have hlen : db.randomCandidates.length = 0 := by rw [h]; rfl
      rw [DB.randomQuoteTx]
      exact dif_pos hlen

/-- Witness for C5's amended theorem: on a store with one unvoted quote,
`randomQuoteTx` returns that quote, which is stored and above threshold. -/
theorem randomquote_threshold_witness :
    DB.randomQuoteTx ⟨[⟨1, 0, "a", "q"⟩], []⟩ 0 = .ok ⟨1, 0, "a", "q"⟩
  ∧ (⟨1, 0, "a", "q"⟩ : QuoteRow) ∈ (⟨[⟨1, 0, "a", "q"⟩], []⟩ : DB).quotes
  ∧ quoteThreshold < DB.score ⟨[⟨1, 0, "a", "q"⟩], []⟩ 1 :=
  ⟨rfl, ((randomquote_threshold ⟨[⟨1, 0, "a", "q"⟩], []⟩ 0).1 ⟨1, 0, "a", "q"⟩ rfl).1,
    ((randomquote_threshold ⟨[⟨1, 0, "a", "q"⟩], []⟩ 0).1 ⟨1, 0, "a", "q"⟩ rfl).2⟩

/-! ## C7: the oldest revision's AddQuote increments the cache on failure -/

/-- C7 evaluation: starting from an open engine over an empty store with
a correct cache of `0`, an `AddQuote` whose `INSERT` fails returns an
error, leaves the store empty — and still increments the cached count to
`1`, so the cache no longer equals `COUNT(*)` over the record store. -/
theorem addquote_v0_count_drift :
    V0.AddQuote ⟨some ⟨[], []⟩, 0⟩ "a" "q" 0 true = (.err .execFail, ⟨some ⟨[], []⟩, 1⟩)
  ∧ (⟨[], []⟩ : DB).quotes.length = 0
  ∧ (OpenDB ⟨[], []⟩).nQuotes = 0 := by
  decide

/-! ## C9: after Close, operations panic instead of returning EngineClosed -/

/-- C9 counterexample: on the engine state left by `Close` (nil handle),
`AddQuote` and `Upvote` hit a nil-pointer dereference — the panicked
outcome, not a returned error value of any kind. -/
theorem engine_closed_counterexample :
    (QuoteDB.AddQuote ⟨none, 5⟩ "a" "q" 0).1 = Res.panicked
  ∧ (QuoteDB.Upvote ⟨none, 5⟩ 1 "v" 0).1 = Res.panicked :=
  ⟨rfl, rfl⟩

/-- C9 (amended): `Close` sets the handle to nil, and every subsequent
operation that touches the database dereferences the nil handle and
panics — no `EngineClosed` error value exists or is returned; only the
store-independent `NQuotes` keeps returning the stale cached count. -/
theorem engine_closed_panics (st : QuoteDB) (h : st.db = none)
    (author text voter : String) (id t : Int) (fault : Option DelFault) (r : Nat)
    (filterLow : Bool) :
    QuoteDB.AddQuote st author text t = (.panicked, st)
  ∧ QuoteDB.EditQuote st id text = (.panicked, st)
  ∧ QuoteDB.DelQuote st id fault = (.panicked, st)
  ∧ QuoteDB.Upvote st id voter t = (.panicked, st)
  ∧ QuoteDB.Downvote st id voter t = (.panicked, st)
  ∧ QuoteDB.Unvote st id voter = (.panicked, st)
  ∧ QuoteDB.Votes st id = (.panicked, st)
  ∧ QuoteDB.RandomQuote st r = (.panicked, st)
  ∧ QuoteDB.GetAll st filterLow = (.panicked, st)
  ∧ QuoteDB.Close st = (.panicked, st)
  ∧ QuoteDB.NQuotes st = st.nQuotes
  ∧ (∀ (db0 : DB) (n : Int), QuoteDB.Close ⟨some db0, n⟩ = (.ok (), ⟨none, n⟩)) := by
  obtain ⟨stdb, n⟩ := st
  cases stdb with
  | some db0 => exact Option.noConfusion h
  | none =>
    exact ⟨rfl, rfl, rfl, rfl, rfl, rfl, rfl, rfl, rfl, rfl, rfl,
      fun db0 n2 => rfl⟩

/-- Witness for C9's amended theorem at the concrete closed state. -/
theorem engine_closed_panics_witness :
    QuoteDB.AddQuote ⟨none, 5⟩ "a" "q" 0 = (.panicked, ⟨none, 5⟩)
  ∧ QuoteDB.EditQuote ⟨none, 5⟩ 1 "q" = (.panicked, ⟨none, 5⟩)
  ∧ QuoteDB.DelQuote ⟨none, 5⟩ 1 none = (.panicked, ⟨none, 5⟩)
  ∧ QuoteDB.Upvote ⟨none, 5⟩ 1 "v" 0 = (.panicked, ⟨none, 5⟩)
  ∧ QuoteDB.Downvote ⟨none, 5⟩ 1 "v" 0 = (.panicked, ⟨none, 5⟩)
  ∧ QuoteDB.Unvote ⟨none, 5⟩ 1 "v" = (.panicked, ⟨none, 5⟩)
  ∧ QuoteDB.Votes ⟨none, 5⟩ 1 = (.panicked, ⟨none, 5⟩)
  ∧ QuoteDB.RandomQuote ⟨none, 5⟩ 0 = (.panicked, ⟨none, 5⟩)
  ∧ QuoteDB.GetAll ⟨none, 5⟩ true = (.panicked, ⟨none, 5⟩)
  ∧ QuoteDB.Close ⟨none, 5⟩ = (.panicked, ⟨none, 5⟩)
  ∧ QuoteDB.NQuotes ⟨none, 5⟩ = 5
  ∧ (∀ (db0 : DB) (n : Int), QuoteDB.Close ⟨some db0, n⟩ = (.ok (), ⟨none, n⟩)) :=
  engine_closed_panics ⟨none, 5⟩ rfl "a" "q" "v" 1 0 none 0 true

/-! ## C10: Votes on an id with no rows returns (0, 0) without checking -/

/-- C10: `Votes` runs only the two aggregate queries over the vote
ledger — it never consults the quotes table, so for an id with no quote
row (never created or already deleted) and no vote rows it returns
`(0, 0)` with no error rather than NotFound. -/
theorem votes_no_existence_check (db : DB) (n : Int) (id : Int)
    (hmissing : db.hasQuote id = false)
    (hno : db.votes.filter (fun r => r.quote_id == id) = []) :
    QuoteDB.Votes ⟨some db, n⟩ id = (.ok (0, 0), ⟨some db, n⟩)
  ∧ (∀ qs : List QuoteRow,
      QuoteDB.Votes ⟨some ⟨qs, db.votes⟩, n⟩ id
        = (.ok ((⟨qs, db.votes⟩ : DB).votesPair id), ⟨some ⟨qs, db.votes⟩, n⟩)) := by
  rw [List.filter_eq_nil_iff] at hno
  constructor
  · have hup : db.upvotes id = 0 := by
      rw [DB.upvotes, List.length_eq_zero, List.filter_eq_nil_iff]
      intro r hr
      have := hno r hr
      simp only [Bool.and_eq_true, not_and] at this ⊢
      intro hid
      exact absurd hid this
    have hdown : db.downvotes id = 0 := by
      rw [DB.downvotes, List.length_eq_zero, List.filter_eq_nil_iff]
      intro r hr
      have := hno r hr
      simp only [Bool.and_eq_true, not_and] at this ⊢
      intro hid
      exact absurd hid this
    show ((Res.ok (db.votesPair id) : Res (Nat × Nat)), (⟨some db, n⟩ : QuoteDB))
      = (.ok (0, 0), ⟨some db, n⟩)
    rw [DB.votesPair, hup, hdown]
  · intro qs
    rfl

/-- Witness for C10: quote id 9 has no quote row and no vote rows in a
store that does contain other quotes and votes; `Votes 9` returns
`(0, 0)` with no error. -/
theorem votes_no_existence_check_witness :
    QuoteDB.Votes ⟨some ⟨[⟨1, 0, "a", "q"⟩], [⟨1, "v", 1, 0⟩]⟩, 1⟩ 9
      = (.ok (0, 0), ⟨some ⟨[⟨1, 0, "a", "q"⟩], [⟨1, "v", 1, 0⟩]⟩, 1⟩) :=
  (votes_no_existence_check ⟨[⟨1, 0, "a", "q"⟩], [⟨1, "v", 1, 0⟩]⟩ 1 9
    (by decide) (by decide)).1

/-! ## C8: ListAll order and the caller-side vote sort -/

theorem idDescLe_trans :
    ∀ a b c : QuoteRow, idDescLe a b = true → idDescLe b c = true → idDescLe a c = true := by
  intro a b c hab hbc
  simp only [idDescLe, decide_eq_true_eq] at *
  omega

theorem idDescLe_total : ∀ a b : QuoteRow, (idDescLe a b || idDescLe b a) = true := by
  intro a b
  simp only [idDescLe, Bool.or_eq_true, decide_eq_true_eq]
  exact Int.le_total b.id a.id

theorem getAllRows_sorted (db : DB) (f : Bool) :
    (db.getAllRows f).Pairwise (fun a b => b.id ≤ a.id) := by
  have h := List.sorted_mergeSort idDescLe_trans idDescLe_total
    (if f then db.quotes.filter (fun q => quoteThreshold < db.score q.id) else db.quotes)
  exact h.imp (fun hab => by simpa [idDescLe] using hab)

theorem getAll_sorted (db : DB) (f : Bool) :
    (db.GetAll f).Pairwise (fun a b : Quote => b.ID ≤ a.ID) := by
  rw [DB.GetAll, List.pairwise_map]
  exact getAllRows_sorted db f

theorem voteSortLe_iff (a b : Quote) :
    voteSortLe a b = true
      ↔ (b.scoreView < a.scoreView ∨ (a.scoreView = b.scoreView ∧ b.ID ≤ a.ID)) := by
  simp only [voteSortLe, voteSortLess, Bool.not_eq_true', Bool.or_eq_false_iff,
    Bool.and_eq_false_iff, decide_eq_false_iff_not, not_lt]
  omega

theorem voteSortLe_trans :
    ∀ a b c : Quote, voteSortLe a b = true → voteSortLe b c = true → voteSortLe a c = true := by
  intro a b c hab hbc
  rw [voteSortLe_iff] at *
  omega

theorem voteSortLe_total : ∀ a b : Quote, (voteSortLe a b || voteSortLe b a) = true := by
  intro a b
  rw [Bool.or_eq_true, voteSortLe_iff, voteSortLe_iff]
  omega

/-- C8: `GetAll` returns the (optionally threshold-filtered) quotes
ordered by id descending — newest first; the web layer leaves that order
untouched unless vote sorting was requested, in which case it re-sorts
the sequence returned by the store — a permutation of it — so that it is
ordered by score descending with ties broken by id descending (the
higher id wins the tie).  The ranking is applied by the caller on the
returned sequence, not inside the store query. -/
theorem listall_order_and_votesort (db : DB) (showAll : Bool) :
    (∀ f : Bool, (db.GetAll f).Pairwise (fun a b => b.ID ≤ a.ID))
  ∧ webQuotesList db showAll false = db.GetAll (!showAll)
  ∧ (webQuotesList db showAll true).Perm (db.GetAll (!showAll))
  ∧ (webQuotesList db showAll true).Pairwise
      (fun a b => b.scoreView < a.scoreView ∨ (a.scoreView = b.scoreView ∧ b.ID ≤ a.ID)) := by
  refine ⟨fun f => getAll_sorted db f, rfl, ?_, ?_⟩
  · show ((db.GetAll (!showAll)).mergeSort voteSortLe).Perm (db.GetAll (!showAll))
    exact List.mergeSort_perm _ _
  · show ((db.GetAll (!showAll)).mergeSort voteSortLe).Pairwise _
    exact (List.sorted_mergeSort voteSortLe_trans voteSortLe_total _).imp
      (fun h => (voteSortLe_iff _ _).mp h)
